import Mathlib

/-!
Verification of the avatar studio's procedural animator and audio pipeline.

The embedding translates the TypeScript sources (`AvatarCanvas.tsx`,
`useAudioEngine.ts`, the media-controls and export-panel components) into
Lean definitions.  JavaScript `number` arithmetic is modelled with exact
rational arithmetic (`ℚ`); buffer indices and byte values with `ℕ`;
16-bit quantized samples with `ℤ`.
-/

namespace AvatarStudio

/-- `clamp01` from `AvatarCanvas.tsx` line 46:
`(value) => Math.max(0, Math.min(1, value))`. -/
def clamp01 (value : ℚ) : ℚ := max 0 (min 1 value)

/-- Emotion slider state (`EmotionState` in `AvatarCanvas.tsx`). -/
structure EmotionState where
  happy : ℚ
  sad : ℚ
  angry : ℚ
  surprised : ℚ
  neutral : ℚ

/-- Mouth openness as computed in `drawFacialFeatures` (`AvatarCanvas.tsx`
lines 286-287):
`mouthOpenBase = audioLevel * (0.65 + emotions.surprised / 180)`;
`mouthOpen = clamp01(mouthOpenBase + (emotions.happy - emotions.sad) / 400)`. -/
def mouthOpen (audioLevel : ℚ) (e : EmotionState) : ℚ :=
  let mouthOpenBase := audioLevel * (0.65 + e.surprised / 180)
  clamp01 (mouthOpenBase + (e.happy - e.sad) / 400)

/-- Camera angles (`CameraAngle` in `AvatarCanvas.tsx`). -/
inductive CameraAngle
  | front
  | threeQuarterLeft
  | threeQuarterRight
  | closeUp
  | wide

/-- A camera preset: x offset, y fraction of canvas height, scale. -/
structure CameraOffset where
  x : ℚ
  y : ℚ
  scale : ℚ

/-- `computeCameraOffset` from `AvatarCanvas.tsx` lines 394-407. -/
def computeCameraOffset : CameraAngle → CameraOffset
  | .threeQuarterLeft => { x := -30, y := 0.52, scale := 1.02 }
  | .threeQuarterRight => { x := 30, y := 0.52, scale := 1.02 }
  | .closeUp => { x := 0, y := 0.45, scale := 1.18 }
  | .wide => { x := 0, y := 0.58, scale := 0.92 }
  | .front => { x := 0, y := 0.52, scale := 1 }

/-- Blink state (`blinkStateRef` in `AvatarCanvas.tsx`). -/
structure BlinkState where
  closing : Bool
  openness : ℚ
  target : ℚ

/-- One frame of the blink state machine inside `render`
(`AvatarCanvas.tsx` lines 110-133).  `trigger` models the stochastic
blink trigger `elapsed > 2800 + Math.random() * 2000`, which the code
evaluates every frame regardless of the current phase. -/
def blinkStep (trigger : Bool) (s0 : BlinkState) : BlinkState :=
  let s := if trigger then { s0 with closing := true, target := 0 } else s0
  if s.closing then
    let o := s.openness - 0.15
    if o ≤ 0 then { closing := false, openness := 0, target := 1 }
    else { s with openness := o }
  else if s.openness < s.target then
    let o := s.openness + 0.12
    if 1 ≤ o then { s with openness := 1 } else { s with openness := o }
  else s

/-- Iterate the blink state machine over a sequence of per-frame trigger
outcomes. -/
def blinkRun (triggers : List Bool) (s : BlinkState) : BlinkState :=
  triggers.foldl (fun st t => blinkStep t st) s

lemma blinkStep_openness_bounds (t : Bool) (s : BlinkState)
    (h0 : 0 ≤ s.openness) (h1 : s.openness ≤ 1) :
    0 ≤ (blinkStep t s).openness ∧ (blinkStep t s).openness ≤ 1 := by
  unfold blinkStep
  cases t <;> dsimp only <;> split_ifs <;>
    first
      | exact ⟨h0, h1⟩
      | constructor <;> dsimp only <;> linarith

lemma blinkRun_cons (t : Bool) (ts : List Bool) (s : BlinkState) :
    blinkRun (t :: ts) s = blinkRun ts (blinkStep t s) := rfl

/-- C5: starting from any blink state with openness in `[0,1]`, the blink
state machine keeps openness in `[0,1]` after any number of frame steps,
for every sequence of stochastic trigger outcomes: the closing branch
decrements by 0.15 clamping at 0, the opening branch increments by 0.12
clamping at 1. -/
theorem blink_openness_invariant (triggers : List Bool) (s : BlinkState)
    (h0 : 0 ≤ s.openness) (h1 : s.openness ≤ 1) :
    0 ≤ (blinkRun triggers s).openness ∧ (blinkRun triggers s).openness ≤ 1 := by
  induction triggers generalizing s with
  | nil => exact ⟨h0, h1⟩
  | cons t ts ih =>
    rw [blinkRun_cons]
    have h := blinkStep_openness_bounds t s h0 h1
    exact ih (blinkStep t s) h.1 h.2

/-- Witness for C5: a blink triggered from the fully open state, followed by
two idle frames, leaves openness within `[0,1]`. -/
theorem blink_openness_invariant_witness :
    0 ≤ (1 : ℚ) ∧ (1 : ℚ) ≤ 1 ∧
      (0 ≤ (blinkRun [true, false, false] ⟨false, 1, 1⟩).openness
        ∧ (blinkRun [true, false, false] ⟨false, 1, 1⟩).openness ≤ 1) :=
  ⟨by norm_num, le_rfl,
    blink_openness_invariant [true, false, false] ⟨false, 1, 1⟩ (by norm_num) le_rfl⟩

/-- C1: for every audio level in `[0,1]` and non-negative emotion weights,
the per-frame mouth openness equals
`clamp01(audioLevel * (0.65 + surprised/180) + (happy - sad)/400)` and lies
in `[0,1]`. -/
theorem mouthOpen_formula_and_range (audioLevel : ℚ) (e : EmotionState)
    (ha0 : 0 ≤ audioLevel) (ha1 : audioLevel ≤ 1)
    (hh : 0 ≤ e.happy) (hs : 0 ≤ e.sad) (hsu : 0 ≤ e.surprised) :
    mouthOpen audioLevel e
        = clamp01 (audioLevel * (0.65 + e.surprised / 180) + (e.happy - e.sad) / 400)
      ∧ 0 ≤ mouthOpen audioLevel e ∧ mouthOpen audioLevel e ≤ 1 := by
  refine ⟨rfl, ?_, ?_⟩
  · exact le_max_left 0 _
  · exact max_le (by norm_num) (min_le_left 1 _)

/-- Witness for C1 at the boundary combination named by the spec:
audioLevel = 1, surprised = 100, happy = 0, sad = 100. -/
theorem mouthOpen_formula_and_range_witness :
    0 ≤ (1 : ℚ) ∧ (1 : ℚ) ≤ 1 ∧ 0 ≤ (0 : ℚ) ∧ 0 ≤ (100 : ℚ) ∧ 0 ≤ (100 : ℚ) ∧
      (mouthOpen 1 ⟨0, 100, 0, 100, 0⟩
          = clamp01 (1 * (0.65 + 100 / 180) + (0 - 100) / 400)
        ∧ 0 ≤ mouthOpen 1 ⟨0, 100, 0, 100, 0⟩
        ∧ mouthOpen 1 ⟨0, 100, 0, 100, 0⟩ ≤ 1) :=
  ⟨by norm_num, le_rfl, le_rfl, by norm_num, by norm_num,
    mouthOpen_formula_and_range 1 ⟨0, 100, 0, 100, 0⟩
      (by norm_num) le_rfl le_rfl (by norm_num) (by norm_num)⟩

/-- C8: the camera preset table maps `closeUp` to `(0, 0.45, 1.18)` and the
default `front` angle to `(0, 0.52, 1.0)` exactly. -/
theorem computeCameraOffset_presets :
    computeCameraOffset .closeUp = { x := 0, y := 0.45, scale := 1.18 }
      ∧ computeCameraOffset .front = { x := 0, y := 0.52, scale := 1 } :=
  ⟨rfl, rfl⟩

/-! ### Audio pipeline state (`useAudioEngine.ts`) -/

/-- Source kinds of `AudioSourceMeta` in `useAudioEngine.ts`. -/
inductive SourceType
  | upload
  | tts
  | video

/-- `AudioSourceMeta` from `useAudioEngine.ts`. -/
structure AudioSourceMeta where
  type : SourceType
  label : String
  duration : ℚ
  url : String

/-- The observable state of the hook's `HTMLAudioElement`: its `src`
attribute, paused flag and playback position.  `load()` on an element with
no source resets the playback position to 0. -/
structure AudioElementState where
  src : Option String
  paused : Bool
  currentTime : ℚ

/-- A JavaScript `number` argument as classified by `Number.isFinite`. -/
inductive JSNumber
  | finite (q : ℚ)
  | nan
  | posInf
  | negInf

/-- `Number.isFinite`. -/
def JSNumber.isFinite : JSNumber → Bool
  | .finite _ => true
  | _ => false

/-- The mutable state of `useAudioEngine` relevant to the transport and
teardown operations: the audio element, the loaded source metadata, whether
a `MediaElementAudioSourceNode` is connected (`sourceNodeRef`), the pending
analysis callback registration (`animationFrameRef`, 0 = none), the current
amplitude (`audioLevel`) and the reported error. -/
structure EngineState where
  audioElement : Option AudioElementState
  sourceMeta : Option AudioSourceMeta
  sourceNode : Bool
  animationFrame : ℕ
  audioLevel : ℚ
  error : Option String

/-- `seek` from `useAudioEngine.ts` lines 234-238:
`if (!audio || !Number.isFinite(value)) return; audio.currentTime = value;`. -/
def seek (value : JSNumber) (s : EngineState) : EngineState :=
  match s.audioElement, value with
  | some audio, .finite q =>
      { s with audioElement := some { audio with currentTime := q } }
  | _, _ => s

/-- `cleanupSource` from `useAudioEngine.ts` lines 150-164: disconnects and
clears the source node, cancels the analysis animation frame, and resets
the audio level to 0. -/
def cleanupSource (s : EngineState) : EngineState :=
  { s with sourceNode := false, animationFrame := 0, audioLevel := 0 }

/-- The effect of `audio.load()` on the element after its `src` attribute
was removed: the playback position resets to 0. -/
def elementLoad (a : AudioElementState) : AudioElementState :=
  { a with currentTime := 0 }

/-- `release` from `useAudioEngine.ts` lines 273-282: runs `cleanupSource`,
clears the source metadata, and if an audio element exists pauses it,
removes its `src` attribute and calls `load()`. -/
def release (s : EngineState) : EngineState :=
  let s1 := cleanupSource s
  { s1 with
    sourceMeta := none,
    audioElement :=
      s1.audioElement.map (fun a => elementLoad { a with paused := true, src := none }) }

/-- C6: `seek` with a non-finite argument (NaN, +Infinity, -Infinity) is a
silent no-op: the whole engine state — in particular the playback position
and the reported error — is unchanged. -/
theorem seek_nonfinite_noop (value : JSNumber) (s : EngineState)
    (h : value.isFinite = false) : seek value s = s := by
  cases value with
  | finite q => simp [JSNumber.isFinite] at h
  | nan => cases h' : s.audioElement <;> simp [seek, h']
  | posInf => cases h' : s.audioElement <;> simp [seek, h']
  | negInf => cases h' : s.audioElement <;> simp [seek, h']

/-- Witness for C6: `seek NaN` on a concrete playing state is the identity. -/
theorem seek_nonfinite_noop_witness :
    JSNumber.isFinite .nan = false ∧
      seek .nan
          { audioElement := some { src := some "blob:demo", paused := false, currentTime := 3 },
            sourceMeta := none, sourceNode := true, animationFrame := 7,
            audioLevel := 0.5, error := none }
        = { audioElement := some { src := some "blob:demo", paused := false, currentTime := 3 },
            sourceMeta := none, sourceNode := true, animationFrame := 7,
            audioLevel := 0.5, error := none } :=
  ⟨rfl, seek_nonfinite_noop .nan _ rfl⟩

/-- C9: `release` is idempotent — a second call raises no error and produces
exactly the same state — and the resulting state is empty: no source
metadata, no source node, no pending analysis callback, audio level zero;
the error field is untouched. -/
theorem release_idempotent_empty (s : EngineState) :
    release (release s) = release s
      ∧ (release s).sourceMeta = none
      ∧ (release s).sourceNode = false
      ∧ (release s).animationFrame = 0
      ∧ (release s).audioLevel = 0
      ∧ (release s).error = s.error := by
  cases h : s.audioElement <;>
    simp [release, cleanupSource, elementLoad, h]

/-! ### Capture/export pipeline (`ExportPanel`) -/

/-- Recording status of the export panel (`ExportStatus`). -/
inductive ExportStatus
  | idle
  | recording
  | processing
  | complete
  | error

/-- An active `MediaRecorder` handle, identified by the mime type it was
started with. -/
structure RecorderHandle where
  mimeType : String

/-- The export panel's state: status and message, download flags, the
recorder reference (`recorderRef`), collected chunk sizes
(`exportChunksRef`), the pending download handle (`downloadUrlRef`) and the
last mime type (`lastMimeRef`). -/
structure ExportState where
  status : ExportStatus
  message : Option String
  downloadReady : Bool
  downloadSize : Option ℕ
  recorder : Option RecorderHandle
  chunks : List ℕ
  downloadUrl : Option String
  lastMime : String

/-- `startRecording` from the export panel (its state-transition part,
up to and including starting the recorder).  `supported` models
`MediaRecorder.isTypeSupported` for the current browser; `canvasReady`
models `canvasRef.current` being non-null. -/
def startRecording (supported : String → Bool) (canvasReady : Bool)
    (mimeType : String) (s : ExportState) : ExportState :=
  if !canvasReady then
    { s with status := .error,
             message := some "Preview canvas not ready. Try again once the avatar is visible." }
  else
    match s.recorder with
    | some _ =>
        { s with status := .error, message := some "Recording already in progress." }
    | none =>
        let s1 := { s with downloadReady := false, downloadSize := none }
        let supportedMime := if supported mimeType then mimeType else "video/webm"
        if !supported supportedMime then
          { s1 with status := .error,
                    message := some ("MediaRecorder does not support " ++ mimeType
                      ++ " on this browser.") }
        else
          { s1 with lastMime := supportedMime,
                    chunks := [],
                    recorder := some { mimeType := supportedMime },
                    status := .recording,
                    message := some "Recording in progress... interact with controls or audio playback." }

/-- C7: calling `startRecording` while a recording is already active reports
the already-recording error and leaves everything else — in particular the
recorder reference, hence the active recording, plus chunks, download state
and mime type — unchanged: only status and message are updated. -/
theorem startRecording_while_active (supported : String → Bool)
    (mimeType : String) (s : ExportState) (r : RecorderHandle)
    (h : s.recorder = some r) :
    startRecording supported true mimeType s
      = { s with status := .error, message := some "Recording already in progress." } := by
  simp [startRecording, h]

/-- Witness for C7: a second `startRecording` call on a concrete recording
state reports the error and keeps the recorder handle. -/
theorem startRecording_while_active_witness :
    ({ status := .recording, message := none, downloadReady := false,
       downloadSize := none, recorder := some { mimeType := "video/webm" },
       chunks := [], downloadUrl := none, lastMime := "video/webm" } : ExportState).recorder
        = some { mimeType := "video/webm" }
      ∧ startRecording (fun _ => true) true "video/webm"
          { status := .recording, message := none, downloadReady := false,
            downloadSize := none, recorder := some { mimeType := "video/webm" },
            chunks := [], downloadUrl := none, lastMime := "video/webm" }
        = { status := .error, message := some "Recording already in progress.",
            downloadReady := false, downloadSize := none,
            recorder := some { mimeType := "video/webm" },
            chunks := [], downloadUrl := none, lastMime := "video/webm" } :=
  ⟨rfl, startRecording_while_active (fun _ => true) "video/webm" _ _ rfl⟩

/-! ### Speech synthesizer (`synthesizeSpeech` in `useAudioEngine.ts`) -/

/-- ASCII whitespace as matched by the JS `\s` class in `text.split(/\s+/)`
(unicode space characters are not representable in the modelled inputs). -/
def jsWhitespace (c : Char) : Bool :=
  c = ' ' ∨ c = '\t' ∨ c = '\n' ∨ c = '\r'

/-- The filtered phoneme characters:
`text.replace(/[^a-z ]/gi, "").split("")` keeps ASCII letters and spaces. -/
def phonemeChars (text : List Char) : List Char :=
  text.filter (fun c => c.isAlpha || c = ' ')

/-- Word counting of `text.split(/\s+/).filter(Boolean).length`: the number
of maximal runs of non-whitespace characters.  The `inWord` flag records
whether the previous character belonged to a word. -/
def countWords : List Char → Bool → ℕ
  | [], _ => 0
  | c :: rest, inWord =>
      if jsWhitespace c then countWords rest false
      else (if inWord then 0 else 1) + countWords rest true

/-- `words.length` for the input text. -/
def wordCount (text : List Char) : ℕ := countWords text false

/-- `baseDuration = Math.max(phonemes.length * 0.055, 0.9)`. -/
def baseDuration (p : ℕ) : ℚ := max ((p : ℚ) * 0.055) 0.9

/-- `fullDuration = baseDuration + words.length * 0.08` — the duration the
synthesizer actually computes and reports. -/
def fullDuration (text : List Char) : ℚ :=
  baseDuration (phonemeChars text).length + (wordCount text : ℚ) * 0.08

/-- Per-phoneme burst duration:
`Math.max(0.04, ch === " " ? 0.08 : 0.06)`. -/
def phonemeDuration (c : Char) : ℚ :=
  max 0.04 (if c = ' ' then 0.08 else 0.06)

/-- The claim's total-duration formula, written from the spec's words for
comparison: the sum of the per-phoneme durations plus 0.08 s per word. -/
def claimedTotalDuration (text : List Char) : ℚ :=
  ((phonemeChars text).map phonemeDuration).sum + (wordCount text : ℚ) * 0.08

/-- `bufferLength = Math.floor(sampleRate * fullDuration)` with
`sampleRate = 48000`. -/
def bufferLen (text : List Char) : ℕ :=
  (⌊(48000 : ℚ) * fullDuration text⌋).toNat

/-- Per-phoneme burst length in samples:
`length = Math.floor(sampleRate * phonemeDuration)`. -/
def burstLength (c : Char) : ℕ :=
  (⌊(48000 : ℚ) * phonemeDuration c⌋).toNat

/-- The 15 ms burst overlap in samples: `Math.floor(sampleRate * 0.015)`.
Each phoneme advances the write position by `length - overlapSamples`. -/
def overlapSamples : ℕ := (⌊(48000 : ℚ) * (0.015 : ℚ)⌋).toNat

/-- The write bursts of the synthesis loop: for each phoneme, the pair of
its start position and its burst length, with
`position += length - overlapSamples` between phonemes. -/
def synthBursts : List Char → ℕ → List (ℕ × ℕ)
  | [], _ => []
  | c :: rest, pos =>
      (pos, burstLength c) :: synthBursts rest (pos + (burstLength c - overlapSamples))

/-- The sample indices one burst actually writes: the inner loop runs
`for n < length && position + n < samples.length`, so index `position + n`
is written exactly when both bounds hold. -/
def burstWriteIndices (bufLen pos len : ℕ) : List ℕ :=
  ((List.range len).filter (fun n => pos + n < bufLen)).map (fun n => pos + n)

lemma phonemeDuration_eval (c : Char) :
    phonemeDuration c = if c = ' ' then (0.08 : ℚ) else 0.06 := by
  unfold phonemeDuration
  split_ifs <;> rw [max_eq_right] <;> norm_num

/-- Evaluated burst length: 3840 samples for a space, 2880 for a letter. -/
def burstLengthN (c : Char) : ℕ := if c = ' ' then 3840 else 2880

lemma burstLength_eval (c : Char) : burstLength c = burstLengthN c := by
  unfold burstLength burstLengthN
  rw [phonemeDuration_eval]
  split_ifs with h
  · rw [show (48000 : ℚ) * 0.08 = ((3840 : ℕ) : ℚ) by norm_num,
      Int.floor_natCast, Int.toNat_natCast]
  · rw [show (48000 : ℚ) * 0.06 = ((2880 : ℕ) : ℚ) by norm_num,
      Int.floor_natCast, Int.toNat_natCast]

lemma overlapSamples_eval : overlapSamples = 720 := by
  unfold overlapSamples
  rw [show (48000 : ℚ) * (0.015 : ℚ) = ((720 : ℕ) : ℚ) by norm_num,
    Int.floor_natCast, Int.toNat_natCast]

/-- Evaluated form of `synthBursts`, with the burst lengths and the 720
sample overlap computed out. -/
def synthBurstsN : List Char → ℕ → List (ℕ × ℕ)
  | [], _ => []
  | c :: rest, pos =>
      (pos, burstLengthN c) :: synthBurstsN rest (pos + (burstLengthN c - 720))

lemma synthBursts_eval (l : List Char) (pos : ℕ) :
    synthBursts l pos = synthBurstsN l pos := by
  induction l generalizing pos with
  | nil => rfl
  | cons c rest ih =>
      simp [synthBursts, synthBurstsN, burstLength_eval, overlapSamples_eval, ih]

lemma bufferLen_eval (text : List Char) :
    bufferLen text
      = max (2640 * (phonemeChars text).length) 43200 + 3840 * wordCount text := by
  have hq : (48000 : ℚ) * fullDuration text
      = ((max (2640 * (phonemeChars text).length) 43200
            + 3840 * wordCount text : ℕ) : ℚ) := by
    unfold fullDuration baseDuration
    push_cast [Nat.cast_max]
    rw [mul_add, mul_max_of_nonneg _ _ (by norm_num : (0 : ℚ) ≤ 48000)]
    congr 1
    · congr 1 <;> ring_nf
    · ring_nf
  unfold bufferLen
  rw [hq, Int.floor_natCast, Int.toNat_natCast]

/-- C10: the synthesis write loop never writes outside the allocated sample
buffer — every written index is below `bufferLen` — even though for some
input text a phoneme burst would extend past the end of the buffer
(summed per-burst extents exceed the buffer length computed from the
total-duration formula), so the per-burst guard really truncates. -/
theorem synth_writes_in_bounds :
    (∀ (text : List Char), ∀ pl ∈ synthBursts (phonemeChars text) 0,
        ∀ i ∈ burstWriteIndices (bufferLen text) pl.1 pl.2, i < bufferLen text)
      ∧ (∃ (text : List Char), ∃ pl ∈ synthBursts (phonemeChars text) 0,
          bufferLen text < pl.1 + pl.2) := by
  constructor
  · intro text pl _ i hi
    unfold burstWriteIndices at hi
    simp only [List.mem_map, List.mem_filter, List.mem_range, decide_eq_true_eq] at hi
    obtain ⟨n, ⟨-, hn⟩, rfl⟩ := hi
    exact hn
  · refine ⟨'a' :: (List.replicate 20 ' ' ++ ['a']), ?_⟩
    rw [synthBursts_eval, bufferLen_eval]
    decide

set_option maxRecDepth 40000 in
/-- Witness for C10: for the text "hi" the first burst starts at 0 with
length 2880, index 0 is written, and it is inside the buffer. -/
theorem synth_writes_in_bounds_witness :
    (0, 2880) ∈ synthBursts (phonemeChars ['h', 'i']) 0
      ∧ 0 ∈ burstWriteIndices (bufferLen ['h', 'i']) 0 2880
      ∧ 0 < bufferLen ['h', 'i'] :=
  ⟨by rw [synthBursts_eval]; decide,
    by unfold burstWriteIndices; rw [bufferLen_eval]; decide,
    synth_writes_in_bounds.1 ['h', 'i'] (0, 2880)
      (by rw [synthBursts_eval]; decide) 0
      (by unfold burstWriteIndices; rw [bufferLen_eval]; decide)⟩

lemma phonemeChars_hi : phonemeChars ['h', 'i'] = ['h', 'i'] := by decide

lemma wordCount_hi : wordCount ['h', 'i'] = 1 := by decide

/-- Counterexample for C2: for the text "hi" the synthesizer's duration is
`max(2 * 0.055, 0.9) + 0.08 = 0.98` seconds, not the claimed sum of
per-phoneme durations `0.06 + 0.06 + 0.08 = 0.2` seconds. -/
theorem synth_duration_cex :
    fullDuration ['h', 'i'] ≠ claimedTotalDuration ['h', 'i']
      ∧ fullDuration ['h', 'i'] = 0.98
      ∧ claimedTotalDuration ['h', 'i'] = 0.2 := by
  have hph : phonemeDuration 'h' = 0.06 := by
    rw [phonemeDuration_eval, if_neg (by decide)]
  have hpi : phonemeDuration 'i' = 0.06 := by
    rw [phonemeDuration_eval, if_neg (by decide)]
  have h1 : fullDuration ['h', 'i'] = 0.98 := by
    unfold fullDuration baseDuration
    rw [phonemeChars_hi, wordCount_hi]
    simp only [List.length_cons, List.length_nil]
    rw [max_eq_right (by norm_num)]
    norm_num
  have h2 : claimedTotalDuration ['h', 'i'] = 0.2 := by
    unfold claimedTotalDuration
    rw [phonemeChars_hi, wordCount_hi]
    simp only [List.map_cons, List.map_nil, List.sum_cons, List.sum_nil, hph, hpi]
    norm_num
  exact ⟨by rw [h1, h2]; norm_num, h1, h2⟩

/-- C2 (amended): the total duration of the synthesized waveform equals
`max(0.055 × filteredCharCount, 0.9) + 0.08 × wordCount` seconds — 0.055 s
per filtered character with a 0.9 s floor, not the per-phoneme burst
durations — and the allocated buffer holds
`max(2640 × filteredCharCount, 43200) + 3840 × wordCount` samples at
48 kHz. -/
theorem synth_duration_formula (text : List Char) :
    fullDuration text
        = max (((phonemeChars text).length : ℚ) * 0.055) 0.9
            + (wordCount text : ℚ) * 0.08
      ∧ bufferLen text
        = max (2640 * (phonemeChars text).length) 43200 + 3840 * wordCount text :=
  ⟨rfl, bufferLen_eval text⟩

/-! ### WAV container (worker `encodeWav` in `useAudioEngine.ts`) -/

/-- Little-endian bytes written by `DataView.setUint16` (the stored value
is the argument wrapped modulo 2^16). -/
def u16le (m : ℕ) : List ℕ := [m % 256, m / 256 % 256]

/-- Little-endian bytes written by `DataView.setUint32` (the stored value
is the argument wrapped modulo 2^32). -/
def u32le (m : ℕ) : List ℕ :=
  [m % 256, m / 256 % 256, m / 65536 % 256, m / 16777216 % 256]

/-- `floatTo16BitPCM` for one sample: clamp to `[-1,1]`, scale negative
values by 0x8000 = 32768 and non-negative ones by 0x7fff = 32767, and
truncate toward zero (`DataView.setInt16` converts its argument with
`ToIntegerOrInfinity`). -/
def quantize16 (s : ℚ) : ℤ :=
  let c := max (-1) (min 1 s)
  if c < 0 then ⌈c * 32768⌉ else ⌊c * 32767⌋

/-- A 16-bit signed value as the unsigned value actually stored
(two's complement). -/
def toU16 (q : ℤ) : ℕ := (q % 65536).toNat

/-- The two little-endian data bytes of one encoded sample. -/
def sampleBytes (s : ℚ) : List ℕ := u16le (toU16 (quantize16 s))

/-- The 44 header bytes of `encodeWav`: RIFF/WAVE magic, RIFF chunk size
`36 + samples.length * bytesPerSample`, fmt chunk of size 16 with PCM
format 1, mono, the sample rate, byte rate `sampleRate * blockAlign`,
block align 2 and 16 bits per sample, then the data chunk header with size
`samples.length * bytesPerSample` (all sizes little-endian). -/
def wavHeader (n rate : ℕ) : List ℕ :=
  [82, 73, 70, 70] ++ u32le (36 + n * 2)
    ++ [87, 65, 86, 69, 102, 109, 116, 32] ++ u32le 16 ++ u16le 1 ++ u16le 1
    ++ u32le rate ++ u32le (rate * 2) ++ u16le 2 ++ u16le 16
    ++ [100, 97, 116, 97] ++ u32le (n * 2)

/-- `encodeWav(samples, sampleRate)`: the header followed by each sample
quantized to 16-bit PCM, two bytes per sample. -/
def encodeWav (samples : List ℚ) (rate : ℕ) : List ℕ :=
  wavHeader samples.length rate ++ (samples.map sampleBytes).join

/-- Byte access into the container (out-of-range reads return 0). -/
def byteAt : List ℕ → ℕ → ℕ
  | [], _ => 0
  | b :: _, 0 => b
  | _ :: rest, n + 1 => byteAt rest n

/-- Read a little-endian 16-bit field. -/
def readU16LE (bytes : List ℕ) (off : ℕ) : ℕ :=
  byteAt bytes off + 256 * byteAt bytes (off + 1)

/-- Read a little-endian 32-bit field. -/
def readU32LE (bytes : List ℕ) (off : ℕ) : ℕ :=
  byteAt bytes off + 256 * byteAt bytes (off + 1)
    + 65536 * byteAt bytes (off + 2) + 16777216 * byteAt bytes (off + 3)

/-- Decode one stored 16-bit value back to a float sample, inverting the
encoder's asymmetric scaling. -/
def decode16 (q : ℤ) : ℚ :=
  if q < 0 then (q : ℚ) / 32768 else (q : ℚ) / 32767

/-- Reinterpret an unsigned 16-bit value as signed. -/
def fromU16 (u : ℕ) : ℤ := if u < 32768 then (u : ℤ) else (u : ℤ) - 65536

/-- Decode a PCM data section, two little-endian bytes per sample. -/
def decodeData : List ℕ → List ℚ
  | b0 :: b1 :: rest => decode16 (fromU16 (b0 + 256 * b1)) :: decodeData rest
  | _ => []

/-- Modelled from the spec: the repository contains no WAV parser (the
spec's round-trip property reads the container back, the browser being the
decoder), so parsing is modelled from the container description: the sample
rate from the fmt chunk at byte offset 24, the data byte count from the
data chunk header at offset 40, and that many bytes of 16-bit little-endian
PCM samples from offset 44 on, decoded by inverting the encoder's
quantization. -/
def parseWav (bytes : List ℕ) : ℕ × List ℚ :=
  (readU32LE bytes 24,
    decodeData (List.take (readU32LE bytes 40) (bytes.drop 44)))

/-- The value a sample takes after an encode/decode round trip. -/
def roundValue (s : ℚ) : ℚ := decode16 (quantize16 s)

lemma quantize16_def (s : ℚ) :
    quantize16 s = if max (-1) (min 1 s) < 0
      then ⌈max (-1) (min 1 s) * 32768⌉
      else ⌊max (-1) (min 1 s) * 32767⌋ := rfl

lemma u32_recompose (m : ℕ) (h : m < 4294967296) :
    m % 256 + 256 * (m / 256 % 256) + 65536 * (m / 65536 % 256)
      + 16777216 * (m / 16777216 % 256) = m := by
  omega

set_option maxHeartbeats 1600000 in
lemma readU32LE_encodeWav_riffSize (samples : List ℚ) (rate : ℕ)
    (h : 36 + samples.length * 2 < 4294967296) :
    readU32LE (encodeWav samples rate) 4 = 36 + samples.length * 2 := by
  have hr : readU32LE (encodeWav samples rate) 4
      = (36 + samples.length * 2) % 256
        + 256 * ((36 + samples.length * 2) / 256 % 256)
        + 65536 * ((36 + samples.length * 2) / 65536 % 256)
        + 16777216 * ((36 + samples.length * 2) / 16777216 % 256) := rfl
  rw [hr, u32_recompose _ h]

set_option maxHeartbeats 1600000 in
lemma readU32LE_encodeWav_rate (samples : List ℚ) (rate : ℕ)
    (h : rate < 4294967296) :
    readU32LE (encodeWav samples rate) 24 = rate := by
  have hr : readU32LE (encodeWav samples rate) 24
      = rate % 256 + 256 * (rate / 256 % 256) + 65536 * (rate / 65536 % 256)
        + 16777216 * (rate / 16777216 % 256) := rfl
  rw [hr, u32_recompose _ h]

set_option maxHeartbeats 1600000 in
lemma readU32LE_encodeWav_byteRate (samples : List ℚ) (rate : ℕ)
    (h : rate * 2 < 4294967296) :
    readU32LE (encodeWav samples rate) 28 = rate * 2 := by
  have hr : readU32LE (encodeWav samples rate) 28
      = (rate * 2) % 256 + 256 * ((rate * 2) / 256 % 256)
        + 65536 * ((rate * 2) / 65536 % 256)
        + 16777216 * ((rate * 2) / 16777216 % 256) := rfl
  rw [hr, u32_recompose _ h]

set_option maxHeartbeats 1600000 in
lemma readU32LE_encodeWav_dataSize (samples : List ℚ) (rate : ℕ)
    (h : samples.length * 2 < 4294967296) :
    readU32LE (encodeWav samples rate) 40 = samples.length * 2 := by
  have hr : readU32LE (encodeWav samples rate) 40
      = (samples.length * 2) % 256 + 256 * ((samples.length * 2) / 256 % 256)
        + 65536 * ((samples.length * 2) / 65536 % 256)
        + 16777216 * ((samples.length * 2) / 16777216 % 256) := rfl
  rw [hr, u32_recompose _ h]

lemma sampleBytes_length (s : ℚ) : (sampleBytes s).length = 2 := rfl

lemma encodeWav_data_length (samples : List ℚ) :
    ((samples.map sampleBytes).join).length = samples.length * 2 := by
  induction samples with
  | nil => rfl
  | cons s rest ih =>
      simp only [List.map_cons, List.join_cons, List.length_append,
        sampleBytes_length, ih, List.length_cons]
      omega

lemma encodeWav_length (samples : List ℚ) (rate : ℕ) :
    (encodeWav samples rate).length = 44 + samples.length * 2 := by
  unfold encodeWav
  rw [List.length_append, encodeWav_data_length]
  norm_num [wavHeader, u32le, u16le]

lemma quantize16_bounds (s : ℚ) :
    -32768 ≤ quantize16 s ∧ quantize16 s < 32768 := by
  rw [quantize16_def]
  have hc1 : (-1 : ℚ) ≤ max (-1) (min 1 s) := le_max_left _ _
  have hc2 : max (-1) (min 1 s) ≤ 1 :=
    max_le (by norm_num) (min_le_left _ _)
  set c := max (-1) (min 1 s) with hc
  split_ifs with hneg
  · constructor
    · have h1 : ((-32768 : ℤ) : ℚ) ≤ c * 32768 := by push_cast; nlinarith
      calc (-32768 : ℤ) = ⌈((-32768 : ℤ) : ℚ)⌉ := (Int.ceil_intCast _).symm
        _ ≤ ⌈c * 32768⌉ := Int.ceil_le_ceil h1
    · have h1 : c * 32768 ≤ ((0 : ℤ) : ℚ) := by push_cast; nlinarith
      have := Int.ceil_le.mpr h1
      omega
  · push_neg at hneg
    constructor
    · have h1 : ((0 : ℤ) : ℚ) ≤ c * 32767 := by push_cast; nlinarith
      have := Int.le_floor.mpr h1
      omega
    · have h1 : c * 32767 ≤ ((32767 : ℤ) : ℚ) := by push_cast; nlinarith
      have := Int.floor_le_floor h1
      rw [Int.floor_intCast] at this
      omega

lemma fromU16_toU16 (q : ℤ) (h1 : -32768 ≤ q) (h2 : q < 32768) :
    fromU16 (toU16 q) = q := by
  unfold fromU16 toU16
  omega

lemma decodeData_cons (b0 b1 : ℕ) (rest : List ℕ) :
    decodeData (b0 :: b1 :: rest)
      = decode16 (fromU16 (b0 + 256 * b1)) :: decodeData rest := rfl

lemma decodeData_sampleBytes (s : ℚ) (rest : List ℕ) :
    decodeData (sampleBytes s ++ rest) = roundValue s :: decodeData rest := by
  obtain ⟨hlo, hhi⟩ := quantize16_bounds s
  have hu : toU16 (quantize16 s) % 256
        + 256 * (toU16 (quantize16 s) / 256 % 256) = toU16 (quantize16 s) := by
    unfold toU16
    omega
  show decodeData (toU16 (quantize16 s) % 256
      :: toU16 (quantize16 s) / 256 % 256 :: rest) = _
  rw [decodeData_cons, hu, fromU16_toU16 _ hlo hhi]
  rfl

lemma decodeData_join (samples : List ℚ) :
    decodeData ((samples.map sampleBytes).join) = samples.map roundValue := by
  induction samples with
  | nil => rfl
  | cons s rest ih =>
      simp only [List.map_cons, List.join_cons]
      rw [decodeData_sampleBytes, ih]

lemma parseWav_encodeWav (samples : List ℚ) (rate : ℕ)
    (hrate : rate < 4294967296) (hn : samples.length * 2 < 4294967296) :
    parseWav (encodeWav samples rate) = (rate, samples.map roundValue) := by
  unfold parseWav
  rw [readU32LE_encodeWav_rate samples rate hrate,
    readU32LE_encodeWav_dataSize samples rate hn]
  have hdrop : (encodeWav samples rate).drop 44 = (samples.map sampleBytes).join := by
    unfold encodeWav
    have h44 : (wavHeader samples.length rate).length = 44 := rfl
    rw [← h44, List.drop_left]
  rw [hdrop, ← encodeWav_data_length samples, List.take_length, decodeData_join]

lemma roundValue_error (s : ℚ) (h1 : -1 ≤ s) (h2 : s ≤ 1) :
    |roundValue s - s| ≤ 1 / 32767 := by
  have hc : max (-1) (min 1 s) = s := by
    rw [min_eq_right h2, max_eq_right h1]
  unfold roundValue
  rw [quantize16_def, hc]
  by_cases hneg : s < 0
  · rw [if_pos hneg]
    unfold decode16
    by_cases hq : ⌈s * 32768⌉ < 0
    · -- negative sample, negative quantized value: error < 1/32768
      rw [if_pos hq]
      have hle := Int.le_ceil (s * 32768)
      have hlt := Int.ceil_lt_add_one (s * 32768)
      rw [abs_le]
      constructor <;> nlinarith
    · -- negative sample, quantized value 0 (s in (-1/32768, 0))
      rw [if_neg hq]
      have hle : ⌈s * 32768⌉ ≤ 0 := Int.ceil_le.mpr (by push_cast; nlinarith)
      have hq0 : ⌈s * 32768⌉ = 0 := le_antisymm hle (not_lt.mp hq)
      have hlt := Int.ceil_lt_add_one (s * 32768)
      rw [hq0] at hlt ⊢
      push_cast at hlt ⊢
      rw [abs_le]
      constructor <;> nlinarith
  · -- non-negative sample: error < 1/32767
    rw [if_neg hneg]
    have hs0 : 0 ≤ s := not_lt.mp hneg
    unfold decode16
    have hfnn : (0 : ℤ) ≤ ⌊s * 32767⌋ := Int.floor_nonneg.mpr (by nlinarith)
    rw [if_neg (by omega : ¬ ⌊s * 32767⌋ < 0)]
    have hle := Int.floor_le (s * 32767)
    have hlt := Int.lt_floor_add_one (s * 32767)
    rw [abs_le]
    constructor <;> nlinarith

set_option maxHeartbeats 1600000 in
/-- C4: the WAV encoder emits a mono 16-bit linear-PCM container whose
header fields are computed exactly from the sample count N and rate R:
RIFF chunk size `36 + 2N`, PCM format 1, 1 channel, sample rate R, byte
rate `R * blockAlign`, block align 2, bits per sample 16, data chunk size
`2N`, and total byte length `44 + 2N`. -/
theorem encodeWav_header_fields (samples : List ℚ) (rate : ℕ)
    (hrate : rate * 2 < 4294967296)
    (hn : 36 + samples.length * 2 < 4294967296) :
    (encodeWav samples rate).length = 44 + samples.length * 2
      ∧ readU32LE (encodeWav samples rate) 4 = 36 + samples.length * 2
      ∧ readU16LE (encodeWav samples rate) 20 = 1
      ∧ readU16LE (encodeWav samples rate) 22 = 1
      ∧ readU32LE (encodeWav samples rate) 24 = rate
      ∧ readU32LE (encodeWav samples rate) 28 = rate * 2
      ∧ readU16LE (encodeWav samples rate) 32 = 2
      ∧ readU16LE (encodeWav samples rate) 34 = 16
      ∧ readU32LE (encodeWav samples rate) 40 = samples.length * 2 :=
  ⟨encodeWav_length samples rate,
    readU32LE_encodeWav_riffSize samples rate hn,
    rfl, rfl,
    readU32LE_encodeWav_rate samples rate (by omega),
    readU32LE_encodeWav_byteRate samples rate hrate,
    rfl, rfl,
    readU32LE_encodeWav_dataSize samples rate (by omega)⟩

/-- Witness for C4 at two concrete samples and rate 8000. -/
theorem encodeWav_header_fields_witness :
    (8000 : ℕ) * 2 < 4294967296
      ∧ 36 + ([(0.5 : ℚ), -0.25] : List ℚ).length * 2 < 4294967296
      ∧ ((encodeWav [(0.5 : ℚ), -0.25] 8000).length
            = 44 + ([(0.5 : ℚ), -0.25] : List ℚ).length * 2
          ∧ readU32LE (encodeWav [(0.5 : ℚ), -0.25] 8000) 4
            = 36 + ([(0.5 : ℚ), -0.25] : List ℚ).length * 2
          ∧ readU16LE (encodeWav [(0.5 : ℚ), -0.25] 8000) 20 = 1
          ∧ readU16LE (encodeWav [(0.5 : ℚ), -0.25] 8000) 22 = 1
          ∧ readU32LE (encodeWav [(0.5 : ℚ), -0.25] 8000) 24 = 8000
          ∧ readU32LE (encodeWav [(0.5 : ℚ), -0.25] 8000) 28 = 8000 * 2
          ∧ readU16LE (encodeWav [(0.5 : ℚ), -0.25] 8000) 32 = 2
          ∧ readU16LE (encodeWav [(0.5 : ℚ), -0.25] 8000) 34 = 16
          ∧ readU32LE (encodeWav [(0.5 : ℚ), -0.25] 8000) 40
            = ([(0.5 : ℚ), -0.25] : List ℚ).length * 2) :=
  ⟨by norm_num, by norm_num,
    encodeWav_header_fields [(0.5 : ℚ), -0.25] 8000 (by norm_num) (by norm_num)⟩

/-- C3 (amended): encoding N float samples at rate R and parsing the
container back yields exactly N samples at rate R — each decoded sample
being the quantized image of its input — and for input samples inside
`[-1,1]` the per-sample quantization error is at most 1/32767 (positive
samples are scaled by 0x7fff, so the worst-case error slightly exceeds the
claimed 1/32768; out-of-range inputs are clamped to `[-1,1]` first). -/
theorem wav_roundtrip (samples : List ℚ) (rate : ℕ)
    (hrate : rate < 4294967296) (hn : samples.length * 2 < 4294967296) :
    (parseWav (encodeWav samples rate)).1 = rate
      ∧ (parseWav (encodeWav samples rate)).2.length = samples.length
      ∧ (parseWav (encodeWav samples rate)).2 = samples.map roundValue
      ∧ (∀ s : ℚ, -1 ≤ s → s ≤ 1 → |roundValue s - s| ≤ 1 / 32767) := by
  rw [parseWav_encodeWav samples rate hrate hn]
  exact ⟨rfl, List.length_map _ _, rfl, roundValue_error⟩

/-- Witness for C3 at one concrete sample and rate 48000. -/
theorem wav_roundtrip_witness :
    (48000 : ℕ) < 4294967296
      ∧ ([(0.5 : ℚ)] : List ℚ).length * 2 < 4294967296
      ∧ ((parseWav (encodeWav [(0.5 : ℚ)] 48000)).1 = 48000
          ∧ (parseWav (encodeWav [(0.5 : ℚ)] 48000)).2.length
            = ([(0.5 : ℚ)] : List ℚ).length
          ∧ (parseWav (encodeWav [(0.5 : ℚ)] 48000)).2
            = ([(0.5 : ℚ)] : List ℚ).map roundValue
          ∧ (∀ s : ℚ, -1 ≤ s → s ≤ 1 → |roundValue s - s| ≤ 1 / 32767)) :=
  ⟨by norm_num, by norm_num,
    wav_roundtrip [(0.5 : ℚ)] 48000 (by norm_num) (by norm_num)⟩

/-- Counterexample for C3: the in-range sample 65535/2147418112 (whose
scaled value 65535/65536 truncates to 0) decodes to 0, and the error
65535/2147418112 exceeds the claimed bound 1/32768. -/
theorem wav_roundtrip_cex :
    -1 ≤ (65535 : ℚ) / 2147418112
      ∧ (65535 : ℚ) / 2147418112 ≤ 1
      ∧ (parseWav (encodeWav [(65535 : ℚ) / 2147418112] 48000)).2 = [0]
      ∧ ¬ |(0 : ℚ) - 65535 / 2147418112| ≤ 1 / 32768 := by
  have hq : quantize16 ((65535 : ℚ) / 2147418112) = 0 := by
    unfold quantize16
    have hmin : min (1 : ℚ) ((65535 : ℚ) / 2147418112) = (65535 : ℚ) / 2147418112 :=
      min_eq_right (by norm_num)
    have hmax : max (-1 : ℚ) ((65535 : ℚ) / 2147418112) = (65535 : ℚ) / 2147418112 :=
      max_eq_right (by norm_num)
    rw [hmin, hmax, if_neg (by norm_num)]
    have : (65535 : ℚ) / 2147418112 * 32767 = 65535 / 65536 := by norm_num
    rw [this]
    rw [Int.floor_eq_zero_iff]
    constructor <;> norm_num
  have hrv : roundValue ((65535 : ℚ) / 2147418112) = 0 := by
    unfold roundValue decode16
    rw [hq, if_neg (by norm_num)]
    norm_num
  refine ⟨by norm_num, by norm_num, ?_, by rw [abs_le]; push_neg; intro h; norm_num at h⟩
  rw [parseWav_encodeWav [(65535 : ℚ) / 2147418112] 48000 (by norm_num) (by norm_num)]
  simp [hrv]

end AvatarStudio
